import Mathlib

/-!
Verification of the clawget-sdk client library and CLI against its
natural-language specification.

The development shallowly embeds the TypeScript source (src/src/index.ts,
src/src/cli.ts and the flat CLI entry file) into Lean:

* JSON values are modelled by the inductive `JVal`; JavaScript truthiness,
  property access and the `a || b` fallback idiom are modelled explicitly.
* The HTTP layer is modelled by `FetchOutcome` (the result of one
  `fetch` + `response.json()` exchange) so that the private `request`
  primitive becomes a pure function from outcomes to `Except`.
* Machine numbers appearing in the claims (HTTP statuses, exit codes,
  pagination fields) are modelled as `Nat`/`Int`; none of the verified
  code performs arithmetic where overflow could matter.
-/

/-- Model of a parsed JSON value (the result of `response.json()`).
Numbers are modelled as integers; no claim depends on fractional values. -/
inductive JVal where
  | null
  | bool (b : Bool)
  | num (n : Int)
  | str (s : String)
  | arr (elems : List JVal)
  | obj (fields : List (String × JVal))

/-- JavaScript truthiness of a value (`Boolean(v)`): `null`, `false`, `0`
and the empty string are falsy; every array and object is truthy. -/
def JVal.truthy : JVal → Bool
  | .null => false
  | .bool b => b
  | .num n => n != 0
  | .str s => s != ""
  | .arr _ => true
  | .obj _ => true

/-- JavaScript property access `v[k]`: field lookup on an object, first
binding wins; `none` models `undefined` (absent field or non-object). -/
def JVal.get : JVal → String → Option JVal
  | .obj fields, k => (fields.find? (fun p => p.1 == k)).map (fun p => p.2)
  | _, _ => none

/-- Filter modelling the left operand of the JavaScript `||` operator:
keeps a present, truthy value and discards everything else. -/
def truthyOr (v : Option JVal) : Option JVal :=
  match v with
  | some x => if x.truthy then some x else none
  | none => none

/-- Model of the JavaScript `x || d` fallback with `none` as `undefined`:
the value itself when present and truthy, otherwise the default. -/
def jsOrDefault (v : Option JVal) (d : JVal) : JVal :=
  match truthyOr v with
  | some x => x
  | none => d

mutual

/-- String coercion `String(v)` as performed by the `Error` constructor on
its message argument (src/src/index.ts line 422, `super(message)`). -/
def jsErrString : JVal → String
  | .null => "null"
  | .bool b => cond b "true" "false"
  | .num n => toString n
  | .str s => s
  | .obj _ => "[object Object]"
  | .arr xs => jsArrString xs

/-- Array-to-string coercion: elements joined by commas. -/
def jsArrString : List JVal → String
  | [] => ""
  | [x] => jsElemString x
  | x :: xs => jsElemString x ++ "," ++ jsArrString xs

/-- Element coercion inside an array: `null` renders as the empty string. -/
def jsElemString : JVal → String
  | .null => ""
  | v => jsErrString v

end

/-- Error type of the SDK (class `ClawgetError`, src/src/index.ts 416-425):
a message, an optional HTTP status code and the optional parsed body. -/
structure ClawgetError where
  message : String
  statusCode : Option Nat := none
  response : Option JVal := none

/-- Configuration record accepted by the `Clawget` constructor
(`ClawgetConfig`, src/src/index.ts 8-12). `none` models an absent field. -/
structure ClawgetConfig where
  apiKey : Option String := none
  baseUrl : Option String := none
  agentId : Option String := none

/-- Private state held by a successfully constructed client
(fields `apiKey`, `baseUrl`, `agentId` of class `Clawget`). -/
structure ClawgetState where
  apiKey : String
  baseUrl : String
  agentId : Option String

/-- Production base URL used when `baseUrl` is omitted (line 434). -/
def defaultBaseUrl : String := "https://www.clawget.io/api"

namespace Clawget

/-- Embedding of the `Clawget` constructor (src/src/index.ts 432-440):
reads `config.apiKey` (an absent key behaves as the empty string under
`!this.apiKey`), defaults `baseUrl` via `config.baseUrl || <production>`
and throws `ClawgetError` with message "API key is required" when the key
is falsy. The constructor is a pure function of the configuration: the
source constructor body contains no `fetch` call, which is how the
"zero network calls" part of the contract appears in the embedding. -/
def constructor (config : ClawgetConfig) : Except ClawgetError ClawgetState :=
  let apiKey := config.apiKey.getD ""
  let baseUrl :=
    match config.baseUrl with
    | some b => if b = "" then defaultBaseUrl else b
    | none => defaultBaseUrl
  if apiKey = "" then
    .error { message := "API key is required" }
  else
    .ok { apiKey := apiKey, baseUrl := baseUrl, agentId := config.agentId }

end Clawget

/-- Outcome of one `fetch` + `await response.json()` exchange as observed
by the `request` primitive: a parsed body with its HTTP status, a JSON
parse failure, or a transport failure (DNS, timeout and so on). The two
failure cases carry the message of the underlying `Error`. -/
inductive FetchOutcome where
  | success (status : Nat) (body : JVal)
  | jsonFailure (message : String)
  | transportFailure (message : String)

/-- Status test performed by `response.ok`: true exactly for 200-299. -/
def is2xx (status : Nat) : Bool := 200 ≤ status && status ≤ 299

/-- Message selection for a non-2xx response (src/src/index.ts line 1008):
`data.error || data.message || 'Request failed'`, followed by the string
coercion the `Error` constructor applies. -/
def errMessage (body : JVal) : String :=
  match truthyOr (body.get "error") with
  | some v => jsErrString v
  | none =>
    match truthyOr (body.get "message") with
    | some v => jsErrString v
    | none => "Request failed"

namespace Clawget

/-- Embedding of the private `request` primitive (src/src/index.ts
977-1024) after the response arrives: the body is parsed first; on a
non-ok status a `ClawgetError` carrying the selected message, the status
and the full parsed body is thrown; on an ok status the parsed body is
returned unchanged. A JSON-parse or transport failure lands in the catch
block, which rethrows it as a `ClawgetError` with no status code built
from the underlying message. -/
def request (outcome : FetchOutcome) : Except ClawgetError JVal :=
  match outcome with
  | .success status body =>
    if is2xx status then .ok body
    else .error { message := errMessage body, statusCode := some status, response := some body }
  | .jsonFailure m => .error { message := m }
  | .transportFailure m => .error { message := m }

end Clawget

/-- Default pagination literal of `skills.list`
(src/src/index.ts line 533). -/
def defaultPagination : JVal :=
  .obj [("page", .num 1), ("limit", .num 10), ("total", .num 0),
        ("totalPages", .num 0), ("hasMore", .bool false)]

/-- Result record of `skills.list` (`ListSkillsResponse`); the two fields
are kept as raw JSON values since the handler forwards whatever the
backend supplied without validating element shapes. -/
structure ListSkillsResult where
  skills : JVal
  pagination : JVal

/-- Embedding of the response normalisation of `skills.list`
(src/src/index.ts 528-534) applied to a parsed 2xx body:
`const data = response.data || response` and then
`skills: data.listings || []`,
`pagination: data.pagination || <default literal>`. -/
def skillsListNormalize (response : JVal) : ListSkillsResult :=
  let data := jsOrDefault (response.get "data") response
  { skills := jsOrDefault (data.get "listings") (.arr [])
    pagination := jsOrDefault (data.get "pagination") defaultPagination }

/-- C1: a configuration whose `apiKey` is absent or empty makes the
constructor fail synchronously with `ClawgetError "API key is required"`
(no status code, no response body), and any other configuration
constructs successfully; in both cases the constructor is a pure
function of the configuration, so no network request is involved. -/
theorem clawget_constructor_fail_fast (config : ClawgetConfig) :
    ((config.apiKey = none ∨ config.apiKey = some "") ↔
      Clawget.constructor config =
        .error { message := "API key is required", statusCode := none, response := none }) ∧
    ((config.apiKey ≠ none ∧ config.apiKey ≠ some "") ↔
      ∃ st, Clawget.constructor config = .ok st ∧ st.apiKey = config.apiKey.getD "") := by
  unfold Clawget.constructor
  rcases hk : config.apiKey with _ | key
  · simp [Option.getD]
  · by_cases hempty : key = ""
    · subst hempty
      simp [Option.getD]
    · simp [Option.getD, hempty]

/-- C2 (counterexample to the totality clause): when the backend supplies
a partial pagination object, `skills.list` forwards it unchanged, so the
result's pagination can lack fields — here `limit` is undefined. -/
theorem skillsList_pagination_not_total :
    (skillsListNormalize
        (.obj [("listings", .arr []), ("pagination", .obj [("page", .num 2)])])).pagination
      = .obj [("page", .num 2)] ∧
    ((skillsListNormalize
        (.obj [("listings", .arr []), ("pagination", .obj [("page", .num 2)])])).pagination).get
          "limit" = none :=
  ⟨rfl, rfl⟩

/-- C2 (amended): `skills.list` takes `skills` from the data envelope's
`listings` when a truthy `data` field is present and from the bare
`listings` otherwise, defaulting to the empty list when absent, and takes
`pagination` the same way with the five-field default literal; the default
applies only when the (unwrapped) `pagination` is absent or falsy — a
supplied truthy pagination object is forwarded unchanged and need not
carry all five fields. The concrete input with empty listings and no
pagination yields the empty list and the full default literal. -/
theorem skillsList_normalization (b l p d : JVal) :
    (truthyOr (b.get "data") = none → b.get "listings" = none →
        (skillsListNormalize b).skills = .arr []) ∧
    (truthyOr (b.get "data") = none → b.get "listings" = some l → l.truthy = true →
        (skillsListNormalize b).skills = l) ∧
    (b.get "data" = some d → d.truthy = true → d.get "listings" = some l → l.truthy = true →
        (skillsListNormalize b).skills = l) ∧
    (truthyOr (b.get "data") = none → b.get "pagination" = none →
        (skillsListNormalize b).pagination = defaultPagination) ∧
    (truthyOr (b.get "data") = none → b.get "pagination" = some p → p.truthy = true →
        (skillsListNormalize b).pagination = p) ∧
    (b.get "data" = some d → d.truthy = true → d.get "pagination" = some p → p.truthy = true →
        (skillsListNormalize b).pagination = p) ∧
    skillsListNormalize (.obj [("listings", .arr [])]) =
      { skills := .arr [],
        pagination := .obj [("page", .num 1), ("limit", .num 10), ("total", .num 0),
                            ("totalPages", .num 0), ("hasMore", .bool false)] } := by
  refine ⟨?_, ?_, ?_, ?_, ?_, ?_, rfl⟩
  · intro h1 h2
    simp only [skillsListNormalize, jsOrDefault, h1, h2]
    simp [truthyOr]
  · intro h1 h2 h3
    simp only [skillsListNormalize, jsOrDefault, h1, h2]
    simp [truthyOr, h3]
  · intro h1 h2 h3 h4
    simp [skillsListNormalize, jsOrDefault, truthyOr, h1, h2, h3, h4]
  · intro h1 h2
    simp only [skillsListNormalize, jsOrDefault, h1, h2]
    simp [truthyOr]
  · intro h1 h2 h3
    simp only [skillsListNormalize, jsOrDefault, h1, h2]
    simp [truthyOr, h3]
  · intro h1 h2 h3 h4
    simp [skillsListNormalize, jsOrDefault, truthyOr, h1, h2, h3, h4]

/-- C2 (witness for the amended theorem): a truthy partial pagination
object is forwarded unchanged. -/
theorem skillsList_normalization_witness :
    (skillsListNormalize (.obj [("pagination", .obj [("page", .num 2)])])).pagination
      = .obj [("page", .num 2)] :=
  (skillsList_normalization (.obj [("pagination", .obj [("page", .num 2)])])
      .null (.obj [("page", .num 2)]) .null).2.2.2.2.1 rfl rfl rfl

/-- C3: the request primitive returns a parsed 2xx body unchanged with no
unwrapping; on a non-2xx status it raises a `ClawgetError` whose status
code is the response status, whose response is the full parsed body, and
whose message is the body's truthy `error` field, else its truthy
`message` field, else the fallback "Request failed"; a JSON-parse or
transport failure raises a `ClawgetError` with no status code carrying
the underlying failure's message. -/
theorem request_contract (status : Nat) (body : JVal) (s m : String) :
    (is2xx status = true → Clawget.request (.success status body) = .ok body) ∧
    (is2xx status = false → body.get "error" = some (.str s) → s ≠ "" →
        Clawget.request (.success status body) =
          .error { message := s, statusCode := some status, response := some body }) ∧
    (is2xx status = false → truthyOr (body.get "error") = none →
        body.get "message" = some (.str s) → s ≠ "" →
        Clawget.request (.success status body) =
          .error { message := s, statusCode := some status, response := some body }) ∧
    (is2xx status = false → truthyOr (body.get "error") = none →
        truthyOr (body.get "message") = none →
        Clawget.request (.success status body) =
          .error { message := "Request failed", statusCode := some status, response := some body }) ∧
    (Clawget.request (.jsonFailure m) = .error { message := m, statusCode := none, response := none }) ∧
    (Clawget.request (.transportFailure m) = .error { message := m, statusCode := none, response := none }) := by
  refine ⟨?_, ?_, ?_, ?_, rfl, rfl⟩
  · intro h2xx
    simp [Clawget.request, h2xx]
  · intro h2xx herr hs
    simp [Clawget.request, h2xx, errMessage, truthyOr, herr, JVal.truthy, hs, jsErrString]
  · intro h2xx herr hmsg hs
    simp [Clawget.request, h2xx, errMessage, herr]
    simp [truthyOr, hmsg, JVal.truthy, hs, jsErrString]
  · intro h2xx herr hmsg
    simp [Clawget.request, h2xx, errMessage, herr, hmsg]

/-- C3 (witness): a 200 body is returned unchanged, and a 404 body with a
truthy `error` field raises the corresponding typed error. -/
theorem request_contract_witness :
    Clawget.request (.success 200 (.str "payload")) = .ok (.str "payload") ∧
    Clawget.request (.success 404 (.obj [("error", .str "nope")])) =
      .error { message := "nope", statusCode := some 404,
               response := some (.obj [("error", .str "nope")]) } :=
  ⟨(request_contract 200 (.str "payload") "x" "m").1 rfl,
   (request_contract 404 (.obj [("error", .str "nope")]) "nope" "m").2.1 rfl rfl (by decide)⟩

/-- Assignment of one property on a JavaScript object modelled as an
ordered key-value list: an existing key keeps its position and gets the
new value, a new key is appended (the semantics of `headers[k] = v` and
of each step of `Object.assign`). -/
def hset : List (String × String) → String → String → List (String × String)
  | [], k, v => [(k, v)]
  | p :: rest, k, v => if p.1 = k then (k, v) :: rest else p :: hset rest k v

/-- Property read `m[k]` on the header object. -/
def lookupHeader : List (String × String) → String → Option String
  | [], _ => none
  | p :: rest, k => if p.1 = k then some p.2 else lookupHeader rest k

/-- Embedding of the header construction of the `request` primitive
(src/src/index.ts 983-996): the defaults `Content-Type` and `x-api-key`
are written first, then `Object.assign(headers, options.headers)` copies
every caller-supplied header over them in order, and finally
`if (this.agentId) headers['x-agent-id'] = this.agentId` writes the
agent id (skipped for an empty, falsy agent id). -/
def requestHeaders (apiKey : String) (agentId : Option String)
    (optionHeaders : List (String × String)) : List (String × String) :=
  let base := [("Content-Type", "application/json"), ("x-api-key", apiKey)]
  let merged := optionHeaders.foldl (fun m kv => hset m kv.1 kv.2) base
  match agentId with
  | some a => if a = "" then merged else hset merged "x-agent-id" a
  | none => merged

theorem lookupHeader_hset_self (m : List (String × String)) (k v : String) :
    lookupHeader (hset m k v) k = some v := by
  induction m with
  | nil => simp [hset, lookupHeader]
  | cons p rest ih =>
    by_cases h : p.1 = k
    · simp [hset, lookupHeader, h]
    · simp [hset, lookupHeader, h, ih]

theorem lookupHeader_hset_other (m : List (String × String)) (k k' v : String)
    (hne : k' ≠ k) : lookupHeader (hset m k' v) k = lookupHeader m k := by
  induction m with
  | nil =>
    simp only [hset, lookupHeader]
    rw [if_neg hne]
  | cons p rest ih =>
    simp only [hset]
    by_cases h : p.1 = k'
    · rw [if_pos h]
      simp only [lookupHeader]
      rw [if_neg hne, if_neg (fun hk => hne (h.symm.trans hk))]
    · rw [if_neg h]
      simp only [lookupHeader]
      by_cases h2 : p.1 = k
      · rw [if_pos h2, if_pos h2]
      · rw [if_neg h2, if_neg h2, ih]

theorem lookupHeader_hset_isSome (m : List (String × String)) (k k' v : String)
    (h : (lookupHeader m k).isSome = true) :
    (lookupHeader (hset m k' v) k).isSome = true := by
  by_cases hk : k' = k
  · subst hk
    simp [lookupHeader_hset_self]
  · rwa [lookupHeader_hset_other m k k' v hk]

theorem lookupHeader_foldl_isSome (opt : List (String × String))
    (m : List (String × String)) (k : String)
    (h : (lookupHeader m k).isSome = true) :
    (lookupHeader (opt.foldl (fun m kv => hset m kv.1 kv.2) m) k).isSome = true := by
  induction opt generalizing m with
  | nil => simpa using h
  | cons kv rest ih =>
    simp only [List.foldl_cons]
    exact ih _ (lookupHeader_hset_isSome m k kv.1 kv.2 h)

theorem lookupHeader_foldl_other (opt : List (String × String))
    (m : List (String × String)) (k : String)
    (h : ∀ kv ∈ opt, kv.1 ≠ k) :
    lookupHeader (opt.foldl (fun m kv => hset m kv.1 kv.2) m) k = lookupHeader m k := by
  induction opt generalizing m with
  | nil => simp
  | cons kv rest ih =>
    simp only [List.foldl_cons]
    rw [ih _ (fun q hq => h q (List.mem_cons_of_mem kv hq))]
    exact lookupHeader_hset_other m k kv.1 kv.2 (h kv (List.mem_cons_self kv rest))

/-- C4 (counterexample): a caller-supplied `x-api-key` header replaces
the configured API key, because `Object.assign` copies the caller's
headers after the defaults are written. -/
theorem requestHeaders_api_key_overridable :
    lookupHeader (requestHeaders "secret-key" none [("x-api-key", "attacker-key")])
        "x-api-key" = some "attacker-key" ∧
    ("attacker-key" : String) ≠ "secret-key" :=
  ⟨rfl, by decide⟩

/-- C4 (amended): the header set always contains an `x-api-key` entry,
and that entry holds the configured API key whenever the caller did not
supply an `x-api-key` header of their own (a caller-supplied one
overrides the value, as the counterexample shows); the `Content-Type`
default behaves the same way; the `x-agent-id` header is written after
the merge, so it equals the configured agent id whenever a non-empty
agent id is configured, and with no configured agent id it is present
exactly when the caller supplied one. -/
theorem requestHeaders_contract (apiKey a : String) (agentId : Option String)
    (opt : List (String × String)) :
    ((lookupHeader (requestHeaders apiKey agentId opt) "x-api-key").isSome = true) ∧
    ((∀ kv ∈ opt, kv.1 ≠ "x-api-key") →
        lookupHeader (requestHeaders apiKey agentId opt) "x-api-key" = some apiKey) ∧
    ((∀ kv ∈ opt, kv.1 ≠ "Content-Type") →
        lookupHeader (requestHeaders apiKey agentId opt) "Content-Type"
          = some "application/json") ∧
    (a ≠ "" →
        lookupHeader (requestHeaders apiKey (some a) opt) "x-agent-id" = some a) ∧
    ((∀ kv ∈ opt, kv.1 ≠ "x-agent-id") →
        lookupHeader (requestHeaders apiKey none opt) "x-agent-id" = none) := by
  refine ⟨?_, ?_, ?_, ?_, ?_⟩
  · have hbase : (lookupHeader [("Content-Type", "application/json"), ("x-api-key", apiKey)]
        "x-api-key").isSome = true := by simp [lookupHeader]
    have hfold := lookupHeader_foldl_isSome opt _ "x-api-key" hbase
    unfold requestHeaders
    match agentId with
    | none => exact hfold
    | some a' =>
      by_cases ha : a' = ""
      · simpa [ha] using hfold
      · simp only [ha, if_false]
        exact lookupHeader_hset_isSome _ _ _ _ hfold
  · intro hopt
    have hfold := lookupHeader_foldl_other opt
      [("Content-Type", "application/json"), ("x-api-key", apiKey)] "x-api-key" hopt
    have hbase : lookupHeader [("Content-Type", "application/json"), ("x-api-key", apiKey)]
        "x-api-key" = some apiKey := by simp [lookupHeader]
    unfold requestHeaders
    match agentId with
    | none => rw [hfold, hbase]
    | some a' =>
      by_cases ha : a' = ""
      · simp only [ha, if_true]
        rw [hfold, hbase]
      · simp only [ha, if_false]
        rw [lookupHeader_hset_other _ _ _ _ (by decide), hfold, hbase]
  · intro hopt
    have hfold := lookupHeader_foldl_other opt
      [("Content-Type", "application/json"), ("x-api-key", apiKey)] "Content-Type" hopt
    have hbase : lookupHeader [("Content-Type", "application/json"), ("x-api-key", apiKey)]
        "Content-Type" = some "application/json" := by simp [lookupHeader]
    unfold requestHeaders
    match agentId with
    | none => rw [hfold, hbase]
    | some a' =>
      by_cases ha : a' = ""
      · simp only [ha, if_true]
        rw [hfold, hbase]
      · simp only [ha, if_false]
        rw [lookupHeader_hset_other _ _ _ _ (by decide), hfold, hbase]
  · intro ha
    unfold requestHeaders
    simp only [ha, if_false]
    exact lookupHeader_hset_self _ _ _
  · intro hopt
    unfold requestHeaders
    rw [lookupHeader_foldl_other opt _ "x-agent-id" hopt]
    simp [lookupHeader]

/-- C4 (witness for the amended theorem): with a configured agent id and
a caller override of `Content-Type` only, the API key and agent id
headers hold the configured values. -/
theorem requestHeaders_contract_witness :
    lookupHeader (requestHeaders "k1" (some "agent-7") [("Content-Type", "text/plain")])
        "x-api-key" = some "k1" ∧
    lookupHeader (requestHeaders "k1" (some "agent-7") [("Content-Type", "text/plain")])
        "x-agent-id" = some "agent-7" :=
  ⟨(requestHeaders_contract "k1" "agent-7" (some "agent-7")
      [("Content-Type", "text/plain")]).2.1 (by decide),
   (requestHeaders_contract "k1" "agent-7" (some "agent-7")
      [("Content-Type", "text/plain")]).2.2.2.1 (by decide)⟩

/-- Parsed body of a `/wallet/deposit` response (`DepositInfo`,
src/src/index.ts 314-322), with the fields the normalisation touches or
forwards; `none` models an absent field. -/
structure DepositInfo where
  address : String
  chain : Option String := none
  currency : Option String := none
  balance : Option String := none
  qrCode : Option String := none

/-- Embedding of the `wallet.deposit` result construction
(src/src/index.ts 750-754): the spread keeps every response field, then
`chain: response.chain || 'TRON'` and `currency: 'USDT'` overwrite the
two named fields — the chain falls back only for an absent (or falsy
empty) backend value, while the currency literal is written
unconditionally. -/
def walletDepositNormalize (r : DepositInfo) : DepositInfo :=
  { r with
    chain := some (match r.chain with
      | some c => if c = "" then "TRON" else c
      | none => "TRON")
    currency := some "USDT" }

/-- C6 (counterexample): wallet.deposit overwrites a backend-supplied
currency with the literal "USDT" instead of defaulting only when absent. -/
theorem walletDeposit_currency_forced :
    (walletDepositNormalize
        { address := "TAddr1", chain := some "ETH", currency := some "USDC" }).currency
      = some "USDT" ∧
    (some "USDT" : Option String) ≠ some "USDC" :=
  ⟨rfl, by decide⟩

/-- C6 (amended): the returned record equals the parsed response except
that `chain` defaults to "TRON" exactly when the backend chain is absent
or empty (a non-empty backend chain is preserved), while `currency` is
unconditionally set to "USDT", discarding any backend value; all other
fields are returned unchanged. -/
theorem walletDeposit_normalization (r : DepositInfo) (c : String) :
    (walletDepositNormalize r).address = r.address ∧
    (walletDepositNormalize r).balance = r.balance ∧
    (walletDepositNormalize r).qrCode = r.qrCode ∧
    (r.chain = none ∨ r.chain = some "" → (walletDepositNormalize r).chain = some "TRON") ∧
    (r.chain = some c → c ≠ "" → (walletDepositNormalize r).chain = some c) ∧
    (walletDepositNormalize r).currency = some "USDT" := by
  refine ⟨rfl, rfl, rfl, ?_, ?_, rfl⟩
  · rintro (h | h) <;> simp [walletDepositNormalize, h]
  · intro h hne
    simp [walletDepositNormalize, h, hne]

/-- C6 (witness for the amended theorem): a non-empty backend chain is
preserved while the currency is replaced. -/
theorem walletDeposit_normalization_witness :
    (walletDepositNormalize
        { address := "TAddr1", chain := some "BSC", currency := some "USDC" }).chain
      = some "BSC" :=
  (walletDeposit_normalization
      { address := "TAddr1", chain := some "BSC", currency := some "USDC" } "BSC").2.2.2.2.1
    rfl (by decide)

/-- Category record as consumed by the lookup in `skills.create`
(fields `id`, `name`, `slug` of the `/categories` payload). -/
structure CategoryRec where
  id : String
  name : String
  slug : String
deriving DecidableEq

/-- Model of `String.prototype.toLowerCase` as per-character lowercasing
(adequate for the ASCII category names the comparisons act on). -/
def toLowerStr (s : String) : String := String.mk (s.data.map Char.toLower)

/-- Options of `skills.create` that drive the category resolution
(`CreateSkillOptions`, src/src/index.ts 82-92); `none` models an absent
field. -/
structure CreateSkillOptions where
  name : String
  description : String
  price : Int
  categoryId : Option String := none
  category : Option String := none

/-- Network call issued by `skills.create`, in order of issue. -/
inductive ApiCall where
  | getCategories
  | postCreateSkill (categoryId : String)

/-- JavaScript truthiness of an optional string field. -/
def jsTruthyStr : Option String → Bool
  | some s => s != ""
  | none => false

/-- Category selection of `skills.create` (src/src/index.ts 598-600):
`categories.find(c => c.slug === options.category ||
c.name.toLowerCase() === (options.category || '').toLowerCase())` —
the slug comparison is exact while the name comparison is
case-insensitive. -/
def findCategory (categories : List CategoryRec) (category : String) : Option CategoryRec :=
  categories.find? (fun c => c.slug == category || toLowerStr c.name == toLowerStr category)

/-- Embedding of the category-resolution phase of `skills.create`
(src/src/index.ts 591-625): when `categoryId` is falsy and a truthy
`category` name is given, the `/categories` endpoint is fetched first
(the list argument models `categoriesResponse.data?.categories || []`)
and the matching category's id is used for the `POST /skills` request;
with no match a `ClawgetError` "Category not found: <name>" is thrown
before any create request; with neither field a `ClawgetError`
"Either categoryId or category name is required" is thrown. The result
pairs the ordered list of issued calls with the outcome. -/
def skillsCreateResolve (options : CreateSkillOptions) (categories : List CategoryRec) :
    List ApiCall × Except ClawgetError String :=
  if jsTruthyStr options.categoryId then
    ([.postCreateSkill (options.categoryId.getD "")], .ok (options.categoryId.getD ""))
  else if jsTruthyStr options.category then
    match findCategory categories (options.category.getD "") with
    | some c =>
      if c.id = "" then
        ([.getCategories], .error { message := "Either categoryId or category name is required" })
      else
        ([.getCategories, .postCreateSkill c.id], .ok c.id)
    | none =>
      ([.getCategories],
        .error { message := "Category not found: " ++ options.category.getD "" })
  else
    ([], .error { message := "Either categoryId or category name is required" })

/-- Categories payload used in the C7 counterexample: the only category
matches the requested name on the slug up to case, but not exactly. -/
def c7categories : List CategoryRec :=
  [{ id := "cat1", name := "Writing", slug := "AI-Tools" }]

/-- Create options used in the C7 counterexample. -/
def c7options : CreateSkillOptions :=
  { name := "my skill", description := "d", price := 0, category := some "ai-tools" }

/-- C7 (counterexample): the slug comparison in `skills.create` is exact,
not case-insensitive — a category whose slug equals the given name up to
case is not selected, and the call fails with the not-found error instead
of sending the create request. -/
theorem skillsCreate_slug_case_mismatch :
    (∃ c ∈ c7categories, toLowerStr c.slug = toLowerStr ("ai-tools" : String)) ∧
    (skillsCreateResolve c7options c7categories).1 = [.getCategories] ∧
    (skillsCreateResolve c7options c7categories).2 =
      .error { message := "Category not found: ai-tools" } :=
  ⟨⟨{ id := "cat1", name := "Writing", slug := "AI-Tools" }, by decide, by decide⟩, rfl, rfl⟩

/-- C7 (amended): when `categoryId` is falsy and a truthy category name
is given, `skills.create` fetches `/categories` first; the first category
whose slug equals the given name exactly (case-sensitively) or whose name
equals it case-insensitively is selected and, provided its id is
non-empty, the create request is sent with that id; when no category
matches under that comparison, the call raises the domain error
"Category not found: <name>" and never sends the create request. -/
theorem skillsCreate_category_resolution (options : CreateSkillOptions)
    (categories : List CategoryRec)
    (h1 : jsTruthyStr options.categoryId = false)
    (h2 : jsTruthyStr options.category = true) :
    ((skillsCreateResolve options categories).1.head? = some .getCategories) ∧
    ((∃ c ∈ categories, c.slug = options.category.getD "" ∨
        toLowerStr c.name = toLowerStr (options.category.getD "")) →
      ∃ c, c ∈ categories ∧
        (c.slug = options.category.getD "" ∨
          toLowerStr c.name = toLowerStr (options.category.getD "")) ∧
        (c.id ≠ "" →
          skillsCreateResolve options categories =
            ([.getCategories, .postCreateSkill c.id], .ok c.id))) ∧
    ((∀ c ∈ categories, c.slug ≠ options.category.getD "" ∧
        toLowerStr c.name ≠ toLowerStr (options.category.getD "")) →
      skillsCreateResolve options categories =
        ([.getCategories],
          .error { message := "Category not found: " ++ options.category.getD "" })) := by
  refine ⟨?_, ?_, ?_⟩
  · simp only [skillsCreateResolve, h1, h2]
    cases hf : findCategory categories (options.category.getD "") with
    | none => simp [hf]
    | some c =>
      by_cases hid : c.id = "" <;> simp [hf, hid]
  · intro hex
    have hsome : (findCategory categories (options.category.getD "")).isSome := by
      rw [findCategory, List.find?_isSome]
      obtain ⟨c, hc, hpred⟩ := hex
      exact ⟨c, hc, by simpa [Bool.or_eq_true, beq_iff_eq] using hpred⟩
    obtain ⟨c, hfind⟩ := Option.isSome_iff_exists.mp hsome
    have hmem : c ∈ categories := List.mem_of_find?_eq_some hfind
    have hpred : c.slug = options.category.getD "" ∨
        toLowerStr c.name = toLowerStr (options.category.getD "") := by
      have := List.find?_some hfind
      simpa [Bool.or_eq_true, beq_iff_eq] using this
    refine ⟨c, hmem, hpred, ?_⟩
    intro hid
    simp [skillsCreateResolve, h1, h2, findCategory] at hfind ⊢
    simp [hfind, hid]
  · intro hall
    have hnone : findCategory categories (options.category.getD "") = none := by
      rw [findCategory, List.find?_eq_none]
      intro c hc
      have := hall c hc
      simp [Bool.or_eq_true, beq_iff_eq]
      exact ⟨this.1, this.2⟩
    simp [skillsCreateResolve, h1, h2, hnone]

/-- C7 (witness for the amended theorem): with no matching category the
lookup is issued and the create call fails with the domain error. -/
theorem skillsCreate_category_resolution_witness :
    skillsCreateResolve
        { name := "n", description := "d", price := 0, category := some "zzz" }
        c7categories =
      ([.getCategories], .error { message := "Category not found: zzz" }) :=
  (skillsCreate_category_resolution
      { name := "n", description := "d", price := 0, category := some "zzz" }
      c7categories (by decide) (by decide)).2.2 (by decide)

/-- Test whether the second list is an initial segment of the first
(helper for the substring test below). -/
def charsStartWith : List Char → List Char → Bool
  | _, [] => true
  | [], _ :: _ => false
  | c :: cs, p :: ps => c == p && charsStartWith cs ps

/-- Substring occurrence test on character lists. -/
def charsContain : List Char → List Char → Bool
  | [], pat => pat.isEmpty
  | c :: rest, pat => charsStartWith (c :: rest) pat || charsContain rest pat

/-- Model of `String.prototype.includes` as used by
`error.message.includes('insufficient balance')` in the flat CLI. -/
def stringIncludes (s pat : String) : Bool := charsContain s.data pat.data

/-- Exit-code selection of the CLI `handleError` helper (flat CLI entry
file, lines 83-97): code 2 for the transport error codes `ENOTFOUND` and
`ETIMEDOUT`, otherwise the generic failure code 1. A `ClawgetError` has
no `code` property, so for client-library errors the argument is `none`. -/
def handleErrorExitCode (code : Option String) : Nat :=
  if code = some "ENOTFOUND" ∨ code = some "ETIMEDOUT" then 2 else 1

/-- Exit-code selection of `executePurchase`'s catch block (flat CLI
entry file, lines 349-359): the dedicated code 3 when the error message
contains the substring "insufficient balance", otherwise `handleError`
with the error's absent `code` property. -/
def executePurchaseExitCode (e : ClawgetError) : Nat :=
  if stringIncludes e.message "insufficient balance" then 3
  else handleErrorExitCode none

/-- Observable result of one `buy` invocation after the client call. -/
inductive BuyResult where
  | success
  | exitWith (code : Nat)
deriving DecidableEq

/-- Embedding of `executePurchase` (flat CLI entry file, lines 322-360)
composed with the client's `skills.buy` call: a successful purchase
renders the result, a failed one maps the raised `ClawgetError` to an
exit code. -/
def executePurchase (outcome : FetchOutcome) : BuyResult :=
  match Clawget.request outcome with
  | .ok _ => .success
  | .error e => .exitWith (executePurchaseExitCode e)

/-- C5: a buy whose backend response is status 402 with body
containing the error "insufficient balance" exits with the dedicated
code 3, which differs from the generic failure code 1; any
client-library error whose message does not contain the substring
"insufficient balance" exits with the generic code 1. -/
theorem buy_insufficient_balance_exit (e : ClawgetError) :
    executePurchase (.success 402 (.obj [("error", .str "insufficient balance")]))
      = .exitWith 3 ∧
    (3 : Nat) ≠ 1 ∧
    (stringIncludes e.message "insufficient balance" = false →
      executePurchaseExitCode e = 1) := by
  refine ⟨?_, by decide, ?_⟩
  · have hmsg : errMessage (JVal.obj [("error", JVal.str "insufficient balance")])
        = "insufficient balance" := by
      simp [errMessage, JVal.get, truthyOr, JVal.truthy, jsErrString, List.find?]
    have hreq : Clawget.request
        (.success 402 (.obj [("error", .str "insufficient balance")]))
        = .error { message := "insufficient balance", statusCode := some 402,
                   response := some (.obj [("error", .str "insufficient balance")]) } := by
      simp [Clawget.request, is2xx, hmsg]
    simp only [executePurchase, hreq]
    rfl
  · intro h
    simp [executePurchaseExitCode, h, handleErrorExitCode]

/-- C5 (witness): a generic client-library failure exits with code 1. -/
theorem buy_insufficient_balance_exit_witness :
    executePurchaseExitCode { message := "Request failed", statusCode := some 500 } = 1 :=
  (buy_insufficient_balance_exit { message := "Request failed", statusCode := some 500 }).2.2 rfl

namespace Cli

/-- Inner loop of the Levenshtein matrix construction (flat CLI entry
file, lines 109-121): given the row character `bi`, the remaining
characters of `a`, the previous row starting at the diagonal entry, and
the entry just written to the left, produces the remaining entries of the
current row — `matrix[i][j]` is the diagonal value on a character match
and otherwise one plus the minimum of the diagonal, left and upper
entries. -/
def levRowGo (bi : Char) : List Char → List Nat → Nat → List Nat
  | aj :: as, pd :: pj :: prest, cprev =>
    let cj := if bi == aj then pd else 1 + min pd (min cprev pj)
    cj :: levRowGo bi as (pj :: prest) cj
  | _, _, _ => []

/-- Row iteration of the matrix construction: row `i` starts with the
border value `i` (`matrix[i] = [i]`, lines 103-105) and is completed by
`levRowGo`; the final row is returned. -/
def levRows (aChars : List Char) : List Char → List Nat → Nat → List Nat
  | [], prev, _ => prev
  | bi :: bs, prev, i => levRows aChars bs (i :: levRowGo bi aChars prev i) (i + 1)

/-- Embedding of the `levenshtein` helper inside `suggestCommand` (flat
CLI entry file, lines 101-123): dynamic-programming edit distance, with
row 0 being `0..a.length` and the result `matrix[b.length][a.length]`,
the last entry of the last row. -/
def levenshtein (a b : String) : Nat :=
  ((levRows a.data b.data (List.range (a.data.length + 1)) 1).getLast?).getD 0

/-- Comparison against the running minimum, which starts at `Infinity`
(`none`): every distance is below `Infinity`. -/
def ltInfinity (d : Nat) : Option Nat → Bool
  | none => true
  | some m => decide (d < m)

/-- Fold of `suggestCommand`'s candidate loop (flat CLI entry file,
lines 125-134): a candidate replaces the current closest command exactly
when its distance is strictly below the running minimum and at most 2. -/
def suggestLoop (input : String) : List String → Option String → Option Nat → Option String
  | [], closest, _ => closest
  | cmd :: rest, closest, minD =>
    let d := levenshtein input cmd
    if ltInfinity d minD ∧ d ≤ 2 then suggestLoop input rest (some cmd) (some d)
    else suggestLoop input rest closest minD

/-- Embedding of `suggestCommand` (flat CLI entry file, lines 100-137):
the loop starts with no closest command and an infinite minimum. -/
def suggestCommand (input : String) (commands : List String) : Option String :=
  suggestLoop input commands none none

theorem suggestLoop_some (input : String) (l : List String) :
    ∀ (r : String) (m : Nat), m ≤ 2 → levenshtein input r = m →
    ∃ s, suggestLoop input l (some r) (some m) = some s ∧
      (s = r ∨ s ∈ l) ∧ levenshtein input s ≤ m ∧
      ∀ c ∈ l, levenshtein input s ≤ levenshtein input c := by
  induction l with
  | nil =>
    intro r m hm hr
    exact ⟨r, rfl, Or.inl rfl, le_of_eq hr, by simp⟩
  | cons cmd rest ih =>
    intro r m hm hr
    simp only [suggestLoop]
    by_cases hcond : ltInfinity (levenshtein input cmd) (some m) ∧ levenshtein input cmd ≤ 2
    · rw [if_pos hcond]
      have hlt : levenshtein input cmd < m := of_decide_eq_true hcond.1
      obtain ⟨s, heq, hmem, hlev, hall⟩ := ih cmd (levenshtein input cmd) hcond.2 rfl
      refine ⟨s, heq, ?_, ?_, ?_⟩
      · rcases hmem with h | h
        · exact Or.inr (h ▸ List.mem_cons_self cmd rest)
        · exact Or.inr (List.mem_cons_of_mem cmd h)
      · exact le_trans hlev (le_of_lt hlt)
      · intro c hc
        rcases List.mem_cons.mp hc with h | h
        · exact h ▸ hlev
        · exact hall c h
    · rw [if_neg hcond]
      obtain ⟨s, heq, hmem, hlev, hall⟩ := ih r m hm hr
      refine ⟨s, heq, ?_, hlev, ?_⟩
      · rcases hmem with h | h
        · exact Or.inl h
        · exact Or.inr (List.mem_cons_of_mem cmd h)
      intro c hc
      rcases List.mem_cons.mp hc with h | h
      · subst h
        by_cases hm' : m ≤ levenshtein input c
        · exact le_trans hlev hm'
        · have h2 : ¬ levenshtein input c ≤ 2 := by
            intro hle2
            exact hcond ⟨decide_eq_true (lt_of_not_le hm'), hle2⟩
          exact le_trans hlev (le_trans hm (le_of_lt (lt_of_not_le h2)))
      · exact hall c h

theorem suggestLoop_none_all_far (input : String) :
    ∀ l : List String, (∀ c ∈ l, 2 < levenshtein input c) →
    suggestLoop input l none none = none := by
  intro l
  induction l with
  | nil => intro h; rfl
  | cons cmd rest ih =>
    intro h
    have hcmd := h cmd (List.mem_cons_self cmd rest)
    simp only [suggestLoop]
    rw [if_neg (fun hc => absurd hc.2 (not_le.mpr hcmd))]
    exact ih (fun c hc => h c (List.mem_cons_of_mem cmd hc))

theorem suggestLoop_none_found (input : String) :
    ∀ l : List String, (∃ c ∈ l, levenshtein input c ≤ 2) →
    ∃ s, suggestLoop input l none none = some s ∧ s ∈ l ∧ levenshtein input s ≤ 2 ∧
      ∀ c ∈ l, levenshtein input s ≤ levenshtein input c := by
  intro l
  induction l with
  | nil =>
    rintro ⟨c, hc, _⟩
    exact absurd hc (List.not_mem_nil c)
  | cons cmd rest ih =>
    intro hex
    by_cases hle : levenshtein input cmd ≤ 2
    · simp only [suggestLoop]
      rw [if_pos ⟨rfl, hle⟩]
      obtain ⟨s, heq, hmem, hlev, hall⟩ :=
        suggestLoop_some input rest cmd (levenshtein input cmd) hle rfl
      refine ⟨s, heq, ?_, le_trans hlev hle, ?_⟩
      · rcases hmem with h | h
        · exact h ▸ List.mem_cons_self cmd rest
        · exact List.mem_cons_of_mem cmd h
      · intro c hc
        rcases List.mem_cons.mp hc with h | h
        · exact h ▸ hlev
        · exact hall c h
    · have hex' : ∃ c ∈ rest, levenshtein input c ≤ 2 := by
        obtain ⟨c, hc, hc2⟩ := hex
        rcases List.mem_cons.mp hc with h | h
        · exact absurd (h ▸ hc2) hle
        · exact ⟨c, h, hc2⟩
      obtain ⟨s, heq, hmem, hlev, hall⟩ := ih hex'
      simp only [suggestLoop]
      rw [if_neg (fun hc => absurd hc.2 hle)]
      refine ⟨s, heq, List.mem_cons_of_mem cmd hmem, hlev, ?_⟩
      intro c hc
      rcases List.mem_cons.mp hc with h | h
      · exact h ▸ le_trans hlev (le_of_lt (lt_of_not_le hle))
      · exact hall c h

/-- C8: when every known command is at edit distance greater than 2 from
the unknown input, `suggestCommand` returns no suggestion; when some
command is within distance 2, it returns a command of the list at
minimal edit distance; and for the unknown input "serach" with the flat
CLI's command set it proposes "search". -/
theorem suggestCommand_spec (input : String) (commands : List String) :
    ((∀ c ∈ commands, 2 < levenshtein input c) → suggestCommand input commands = none) ∧
    ((∃ c ∈ commands, levenshtein input c ≤ 2) →
      ∃ s, suggestCommand input commands = some s ∧ s ∈ commands ∧
        levenshtein input s ≤ 2 ∧
        ∀ c ∈ commands, levenshtein input s ≤ levenshtein input c) ∧
    suggestCommand "serach" ["auth", "wallet", "search", "buy", "install", "list", "publish"]
      = some "search" :=
  ⟨suggestLoop_none_all_far input commands,
   suggestLoop_none_found input commands,
   by decide⟩

/-- C8 (witness): the concrete suggestion for "serach" is "search", and
an input far from every command yields no suggestion. -/
theorem suggestCommand_spec_witness :
    suggestCommand "serach" ["auth", "wallet", "search", "buy", "install", "list", "publish"]
        = some "search" ∧
    suggestCommand "zzzzzz" ["auth", "wallet"] = none :=
  ⟨(suggestCommand_spec "serach"
      ["auth", "wallet", "search", "buy", "install", "list", "publish"]).2.2,
   (suggestCommand_spec "zzzzzz" ["auth", "wallet"]).1 (by decide)⟩

end Cli

/-- HTTP request descriptor as issued by one SDK operation through the
`request` primitive: the method (`GET` being fetch's default when the
operation passes no method), the endpoint path appended to the base URL,
and the JSON body when one is serialized. -/
structure HttpRequest where
  method : String
  path : String
  body : Option JVal

/-- Uppercase hexadecimal digit for percent-encoding. -/
def hexDigit (n : Nat) : Char :=
  if n < 10 then Char.ofNat (48 + n) else Char.ofNat (55 + n)

/-- Percent-encoding of one byte. -/
def percentByte (b : Nat) : String :=
  String.mk ['%', hexDigit (b / 16), hexDigit (b % 16)]

/-- UTF-8 bytes of a character. -/
def utf8Bytes (c : Char) : List Nat :=
  let n := c.toNat
  if n < 128 then [n]
  else if n < 2048 then [192 + n / 64, 128 + n % 64]
  else if n < 65536 then [224 + n / 4096, 128 + (n / 64) % 64, 128 + n % 64]
  else [240 + n / 262144, 128 + (n / 4096) % 64, 128 + (n / 64) % 64, 128 + n % 64]

/-- Characters the form serialization leaves unescaped. -/
def formSafeChar (c : Char) : Bool :=
  c.isAlphanum || c == '*' || c == '-' || c == '.' || c == '_'

/-- Serialization of one character under
`application/x-www-form-urlencoded`: space becomes `+`, safe characters
stay, everything else is percent-encoded byte-wise. -/
def formEncodeChar (c : Char) : String :=
  if c == ' ' then "+"
  else if formSafeChar c then String.mk [c]
  else String.join ((utf8Bytes c).map percentByte)

/-- Serialization of one form value. -/
def formEncode (s : String) : String := String.join (s.data.map formEncodeChar)

/-- Model of `URLSearchParams.prototype.toString` (a platform collaborator
of the SDK, not repository code): appended pairs serialized in order as
`k=v` joined by `&`. -/
def encodeParams (ps : List (String × String)) : String :=
  String.intercalate "&" (ps.map (fun p => formEncode p.1 ++ "=" ++ formEncode p.2))

/-- Options of `souls.list` (`ListSoulsOptions`, src/src/index.ts
180-185). -/
structure ListSoulsOptions where
  category : Option String := none
  tags : Option String := none
  limit : Option Nat := none
  offset : Option Nat := none

/-- Query parameters appended by `souls.list` (src/src/index.ts 450-455):
each option is appended only when truthy (non-empty string, non-zero
number), in source order. -/
def soulsListParams (o : ListSoulsOptions) : List (String × String) :=
  (match o.category with
   | some c => if c = "" then [] else [("category", c)]
   | none => []) ++
  (match o.tags with
   | some t => if t = "" then [] else [("tags", t)]
   | none => []) ++
  (match o.limit with
   | some n => if n = 0 then [] else [("limit", toString n)]
   | none => []) ++
  (match o.offset with
   | some n => if n = 0 then [] else [("offset", toString n)]
   | none => [])

/-- Request issued by `souls.list` (src/src/index.ts 457-459): an
unversioned `GET /souls?<params>` with no body. -/
def soulsListRequest (o : ListSoulsOptions) : HttpRequest :=
  { method := "GET", path := "/souls?" ++ encodeParams (soulsListParams o), body := none }

/-- Request issued by `souls.get` (src/src/index.ts 467-470):
`GET /v1/souls/:slug`. -/
def soulsGetRequest (slug : String) : HttpRequest :=
  { method := "GET", path := "/v1/souls/" ++ slug, body := none }

/-- Request issued by `souls.buy` (src/src/index.ts 475-482):
`POST /v1/souls/buy` with the slug in the body. -/
def soulsBuyRequest (soulSlug : String) : HttpRequest :=
  { method := "POST", path := "/v1/souls/buy",
    body := some (.obj [("soulSlug", .str soulSlug)]) }

/-- Options of `souls.create` (`CreateSoulOptions`, src/src/index.ts
148-155). -/
structure CreateSoulOptions where
  name : String
  description : String
  content : String
  price : Option Int := none
  category : Option String := none
  tags : Option (List String) := none

/-- Request issued by `souls.create` (src/src/index.ts 488-499):
`POST /v1/souls/create` with `price ?? 0` and `tags || []` defaults; an
absent category is dropped by `JSON.stringify`. -/
def soulsCreateRequest (o : CreateSoulOptions) : HttpRequest :=
  { method := "POST", path := "/v1/souls/create",
    body := some (.obj
      ([("name", .str o.name), ("description", .str o.description),
        ("content", .str o.content), ("price", .num (o.price.getD 0))] ++
       (match o.category with
        | some c => [("category", .str c)]
        | none => []) ++
       [("tags", .arr ((o.tags.getD []).map JVal.str))])) }

/-- C9: the soul operations split across two path prefixes with a fixed
per-operation mapping — `souls.list` issues an unversioned
`GET /souls?<params>` (never under `/v1/`), while `souls.get`,
`souls.buy` and `souls.create` issue `GET /v1/souls/:slug`,
`POST /v1/souls/buy` and `POST /v1/souls/create` respectively. -/
theorem souls_endpoint_mapping (o : ListSoulsOptions) (slug soulSlug : String)
    (co : CreateSoulOptions) :
    (soulsListRequest o).method = "GET" ∧
    (soulsListRequest o).path.data.take 7 = "/souls?".data ∧
    (soulsListRequest o).path.data.take 4 ≠ "/v1/".data ∧
    (soulsGetRequest slug).method = "GET" ∧
    (soulsGetRequest slug).path = "/v1/souls/" ++ slug ∧
    (soulsBuyRequest soulSlug).method = "POST" ∧
    (soulsBuyRequest soulSlug).path = "/v1/souls/buy" ∧
    (soulsCreateRequest co).method = "POST" ∧
    (soulsCreateRequest co).path = "/v1/souls/create" := by
  refine ⟨rfl, ?_, ?_, rfl, rfl, rfl, rfl, rfl, rfl⟩
  · show ("/souls?" ++ encodeParams (soulsListParams o)).data.take 7 = "/souls?".data
    rw [String.data_append, List.take_append_of_le_length (by decide)]
    decide
  · show ("/souls?" ++ encodeParams (soulsListParams o)).data.take 4 ≠ "/v1/".data
    rw [String.data_append, List.take_append_of_le_length (by decide)]
    decide

/-- Request issued by `wallet.withdraw` (src/src/index.ts 762-768):
`POST /wallet/withdraw` with the amount and destination address. -/
def walletWithdrawRequest (amount : Int) (address : String) : HttpRequest :=
  { method := "POST", path := "/wallet/withdraw",
    body := some (.obj [("amount", .num amount), ("address", .str address)]) }

/-- Request issued by `wallet.withdrawals` (src/src/index.ts 773-776):
a bare `GET` to the same `/wallet/withdraw` path with no body. -/
def walletWithdrawalsRequest : HttpRequest :=
  { method := "GET", path := "/wallet/withdraw", body := none }

/-- C10: `wallet.withdraw` and `wallet.withdrawals` address the identical
path `/wallet/withdraw` — the withdrawal posts `amount` and `address`
while the history issues a body-less GET — and neither ever requests a
`/wallet/withdrawals` path. -/
theorem wallet_withdraw_shared_path (amount : Int) (address : String) :
    (walletWithdrawRequest amount address).method = "POST" ∧
    (walletWithdrawRequest amount address).path = "/wallet/withdraw" ∧
    (walletWithdrawRequest amount address).body =
      some (.obj [("amount", .num amount), ("address", .str address)]) ∧
    walletWithdrawalsRequest.method = "GET" ∧
    walletWithdrawalsRequest.path = "/wallet/withdraw" ∧
    walletWithdrawalsRequest.body = none ∧
    (walletWithdrawRequest amount address).path = walletWithdrawalsRequest.path ∧
    (walletWithdrawRequest amount address).path ≠ "/wallet/withdrawals" ∧
    walletWithdrawalsRequest.path ≠ "/wallet/withdrawals" :=
  ⟨rfl, rfl, rfl, rfl, rfl, rfl, rfl,
   by show ("/wallet/withdraw" : String) ≠ "/wallet/withdrawals"; decide,
   by show ("/wallet/withdraw" : String) ≠ "/wallet/withdrawals"; decide⟩
